import Mathlib

set_option maxRecDepth 100000

/-!
Shallow embedding of the DuskPool dark-pool settlement contract
(`src/contracts/settlement/src/lib.rs`, a Soroban smart contract written in
Rust) and proofs about its escrow ledger, nullifier registry, public-signal
codec and settlement engine.

Modelling conventions:
- `Address` values are opaque comparable identities, modelled as `Nat`.
- Soroban `Map<EscrowKey, i128>` storage is modelled as a total function
  `Addr × Addr → Int` with default `0`; this is faithful because every access
  in the source reads the map with `unwrap_or(0)` (and an absent map as
  `Map::new`).
- The external token-transfer collaborator is modelled as always committing;
  each transfer is recorded in an event trace (`ContractState.transfers`).
  Claims about deposits and withdrawals are conditioned on the collaborator
  not aborting, which is exactly what this models (a panicking collaborator
  aborts the whole Soroban invocation, leaving no state to observe).
- The external Groth16 verifier (together with the stored verification key)
  is modelled as a function parameter `vrf : Bytes → Bytes → Bool` applied to
  the proof bytes and the raw public-signal bytes, mirroring
  `verifier_client.verify_proof_bytes(&vk_bytes, &proof_bytes, &pub_signals_bytes)`.
- `invoke` models the all-or-nothing commit/rollback envelope the Soroban
  host provides around each contract invocation: a contract function that
  returns `Err` aborts the invocation and every storage write it performed is
  discarded.  The core relies on this external guarantee rather than
  implementing it.
-/

/-- Participant / asset / contract identities (opaque comparable tokens). -/
abbrev Addr := Nat

/-- A single byte. -/
abbrev Byte := Fin 256

/-- `soroban_sdk::Bytes`: an arbitrary byte string. -/
abbrev Bytes := List Byte

/-- `BytesN<32>`: a 32-byte value (match ids, nullifiers, decoded signals). -/
abbrev Word := List Byte

/-- The `SettlementError` enum of the contract. -/
inductive SettlementError where
  | OnlyAdmin
  | InsufficientBalance
  | InsufficientEscrow
  | NullifierUsed
  | InvalidProof
  | WhitelistRootMismatch
  | AssetNotEligible
  | ParticipantNotEligible
  | MatchNotFound
  | AlreadySettled
  | InsufficientLockedFunds
  | TransferFailed
deriving DecidableEq

/-- The `SettlementRecord` struct: one completed trade. -/
structure SettlementRecord where
  match_id : Word
  buyer : Addr
  seller : Addr
  asset_address : Addr
  quantity : Int
  price : Int
  timestamp : Nat
  nullifier : Word
deriving DecidableEq

/-- One call to the external token collaborator
`token_client.transfer(&src, &dst, &amount)` on asset `asset`. -/
structure TokenMove where
  src : Addr
  dst : Addr
  asset : Addr
  amount : Int
deriving DecidableEq

/-- The contract instance storage: escrow map (`ESCROW_KEY`), locked map
(`LOCKED_KEY`), nullifier list (`NULLIFIERS_KEY`), settlement journal
(`SETTLS_KEY`), plus the trace of external token transfers performed. -/
structure ContractState where
  escrow : Addr × Addr → Int
  locked : Addr × Addr → Int
  nullifiers : List Word
  settlements : List SettlementRecord
  transfers : List TokenMove

/-- The address of the settlement contract itself
(`env.current_contract_address()`). -/
def contractAddress : Addr := 0

/-- Point update of a balance map (`Map::set`). -/
def setBal (f : Addr × Addr → Int) (k : Addr × Addr) (v : Int) : Addr × Addr → Int :=
  fun k2 => if k2 = k then v else f k2

/-- State after `__constructor`: empty nullifier and settlement lists,
no balance maps stored yet (reads default to zero). -/
def initState : ContractState where
  escrow := fun _ => 0
  locked := fun _ => 0
  nullifiers := []
  settlements := []
  transfers := []

/-- Record an external token transfer (the collaborator commits it). -/
def emitTokenMove (s : ContractState) (src dst asset : Addr) (amount : Int) :
    ContractState :=
  { s with transfers := s.transfers ++ [⟨src, dst, asset, amount⟩] }

/-- `get_escrow_balance`: escrow balance for a participant and asset. -/
def get_escrow_balance (s : ContractState) (participant asset : Addr) : Int :=
  s.escrow (participant, asset)

/-- `get_locked_balance`: locked balance for a participant and asset. -/
def get_locked_balance (s : ContractState) (participant asset : Addr) : Int :=
  s.locked (participant, asset)

/-- `get_available_balance`: escrow minus locked. -/
def get_available_balance (s : ContractState) (participant asset : Addr) : Int :=
  get_escrow_balance s participant asset - get_locked_balance s participant asset

/-- `is_nullifier_used`: membership of a nullifier in the registry
(`nullifiers.contains(&nullifier)`). -/
def is_nullifier_used (s : ContractState) (nullifier : Word) : Bool :=
  decide (nullifier ∈ s.nullifiers)

/-- `add_escrow_balance`: unconditionally add `amount` to the escrow entry,
returning the new balance. -/
def add_escrow_balance (s : ContractState) (participant asset : Addr)
    (amount : Int) : Int × ContractState :=
  let key := (participant, asset)
  let current := s.escrow key
  let new_balance := current + amount
  (new_balance, { s with escrow := setBal s.escrow key new_balance })

/-- `subtract_escrow_balance`: subtract `amount` from the escrow entry,
failing with `InsufficientEscrow` when the current entry is below `amount`. -/
def subtract_escrow_balance (s : ContractState) (participant asset : Addr)
    (amount : Int) : Except SettlementError (Int × ContractState) :=
  let key := (participant, asset)
  let current := s.escrow key
  if current < amount then .error .InsufficientEscrow
  else
    let new_balance := current - amount
    .ok (new_balance, { s with escrow := setBal s.escrow key new_balance })

/-- `add_locked_balance`: unconditionally add `amount` to the locked entry. -/
def add_locked_balance (s : ContractState) (participant asset : Addr)
    (amount : Int) : ContractState :=
  let key := (participant, asset)
  { s with locked := setBal s.locked key (s.locked key + amount) }

/-- `subtract_locked_balance`: subtract `amount` from the locked entry,
failing with `InsufficientLockedFunds` when the current entry is below
`amount`. -/
def subtract_locked_balance (s : ContractState) (participant asset : Addr)
    (amount : Int) : Except SettlementError ContractState :=
  let key := (participant, asset)
  let current := s.locked key
  if current < amount then .error .InsufficientLockedFunds
  else .ok { s with locked := setBal s.locked key (current - amount) }

/-- `transfer_from_escrow`: the internal settlement primitive — subtract from
the sender's locked and escrow entries, then add to the receiver's escrow
entry. -/
def transfer_from_escrow (s : ContractState) (sender receiver asset : Addr)
    (amount : Int) : Except SettlementError ContractState :=
  match subtract_locked_balance s sender asset amount with
  | .error e => .error e
  | .ok s1 =>
    match subtract_escrow_balance s1 sender asset amount with
    | .error e => .error e
    | .ok (_, s2) => .ok (add_escrow_balance s2 receiver asset amount).2

/-- `mark_nullifier_used`: append the nullifier to the registry. -/
def mark_nullifier_used (s : ContractState) (nullifier : Word) : ContractState :=
  { s with nullifiers := s.nullifiers ++ [nullifier] }

/-- Big-endian value of a byte string (`u32::from_be_bytes` on 4 bytes). -/
def be32 (bs : Bytes) : Nat :=
  bs.foldl (fun acc b => acc * 256 + b.val) 0

/-- The loop body of `parse_public_signals`: starting at offset `pos`, read
the given number of 32-byte fields, failing with `InvalidProof` when the
payload is too short. -/
def readFields (bytes : Bytes) : Nat → Nat → Except SettlementError (List Word)
  | _, 0 => .ok []
  | pos, k + 1 =>
    if pos + 32 > bytes.length then .error .InvalidProof
    else
      match readFields bytes (pos + 32) k with
      | .error e => .error e
      | .ok rest => .ok ((bytes.drop pos).take 32 :: rest)

/-- `parse_public_signals`: read a 4-byte big-endian field count, then that
many 32-byte fields. -/
def parse_public_signals (bytes : Bytes) : Except SettlementError (List Word) :=
  if bytes.length < 4 then .error .InvalidProof
  else readFields bytes 4 (be32 (bytes.take 4))

/-- The `i`-th 32-byte field of a signal payload (offset `4 + 32·i`). -/
def signalChunk (bytes : Bytes) (i : Nat) : Word :=
  (bytes.drop (4 + 32 * i)).take 32

/-- `deposit` (body after `require_auth`): externally transfer `amount` from
the depositor to the contract, then add it to the escrow entry, returning the
new balance. -/
def deposit (s : ContractState) (depositor asset_address : Addr)
    (amount : Int) : Except SettlementError (Int × ContractState) :=
  let s1 := emitTokenMove s depositor contractAddress asset_address amount
  .ok (add_escrow_balance s1 depositor asset_address amount)

/-- `withdraw` (body after `require_auth`): check `available < amount`,
subtract from escrow, then externally transfer `amount` back. -/
def withdraw (s : ContractState) (withdrawer asset_address : Addr)
    (amount : Int) : Except SettlementError (Int × ContractState) :=
  let escrow_balance := get_escrow_balance s withdrawer asset_address
  let locked_balance := get_locked_balance s withdrawer asset_address
  let available := escrow_balance - locked_balance
  if available < amount then .error .InsufficientBalance
  else
    match subtract_escrow_balance s withdrawer asset_address amount with
    | .error e => .error e
    | .ok (new_balance, s1) =>
      .ok (new_balance, emitTokenMove s1 contractAddress withdrawer asset_address amount)

/-- `lock_escrow` (body after `require_auth`). -/
def lock_escrow (s : ContractState) (trader asset_address : Addr)
    (amount : Int) : Except SettlementError (Unit × ContractState) :=
  let available := get_escrow_balance s trader asset_address -
    get_locked_balance s trader asset_address
  if available < amount then .error .InsufficientEscrow
  else .ok ((), add_locked_balance s trader asset_address amount)

/-- `unlock_escrow` (body after `require_auth`). -/
def unlock_escrow (s : ContractState) (trader asset_address : Addr)
    (amount : Int) : Except SettlementError (Unit × ContractState) :=
  let locked_balance := get_locked_balance s trader asset_address
  if locked_balance < amount then .error .InsufficientLockedFunds
  else
    match subtract_locked_balance s trader asset_address amount with
    | .error e => .error e
    | .ok s1 => .ok ((), s1)

/-- `settle_trade` body: decode signals, check the count is 7, check the
nullifier, invoke the verifier, run the two transfer legs, mark the
nullifier, append the settlement record.  The whitelist-root comparison is
commented out in the source and therefore absent here.  `now` is
`env.ledger().timestamp()`. -/
def settle_trade (vrf : Bytes → Bytes → Bool) (now : Nat) (s : ContractState)
    (match_id : Word) (buyer seller asset_address payment_asset : Addr)
    (quantity price : Int) (proof_bytes pub_signals_bytes : Bytes) :
    Except SettlementError (SettlementRecord × ContractState) :=
  match parse_public_signals pub_signals_bytes with
  | .error e => .error e
  | .ok pub_signals =>
    if pub_signals.length ≠ 7 then .error .InvalidProof
    else
      let nullifier := pub_signals.headD []
      if is_nullifier_used s nullifier then .error .NullifierUsed
      else if vrf proof_bytes pub_signals_bytes then
        match transfer_from_escrow s seller buyer asset_address quantity with
        | .error e => .error e
        | .ok s1 =>
          match transfer_from_escrow s1 buyer seller payment_asset price with
          | .error e => .error e
          | .ok s2 =>
            let s3 := mark_nullifier_used s2 nullifier
            let record : SettlementRecord :=
              { match_id := match_id, buyer := buyer, seller := seller,
                asset_address := asset_address, quantity := quantity,
                price := price, timestamp := now, nullifier := nullifier }
            .ok (record, { s3 with settlements := s3.settlements ++ [record] })
      else .error .InvalidProof

/-- The transactional envelope of one public contract invocation: on `Err`
the Soroban host discards every storage write of the invocation, so the
observable state is the pre-call state. -/
def invoke {α : Type} (f : ContractState → Except SettlementError (α × ContractState))
    (s : ContractState) : Except SettlementError α × ContractState :=
  match f s with
  | .error e => (.error e, s)
  | .ok (a, s1) => (.ok a, s1)

/-- The public `deposit` entry point, as observed across the invocation. -/
def deposit_invoke (depositor asset : Addr) (amount : Int) (s : ContractState) :
    Except SettlementError Int × ContractState :=
  invoke (fun t => deposit t depositor asset amount) s

/-- The public `withdraw` entry point, as observed across the invocation. -/
def withdraw_invoke (withdrawer asset : Addr) (amount : Int) (s : ContractState) :
    Except SettlementError Int × ContractState :=
  invoke (fun t => withdraw t withdrawer asset amount) s

/-- The public `lock_escrow` entry point, as observed across the invocation. -/
def lock_escrow_invoke (trader asset : Addr) (amount : Int) (s : ContractState) :
    Except SettlementError Unit × ContractState :=
  invoke (fun t => lock_escrow t trader asset amount) s

/-- The public `unlock_escrow` entry point, as observed across the
invocation. -/
def unlock_escrow_invoke (trader asset : Addr) (amount : Int) (s : ContractState) :
    Except SettlementError Unit × ContractState :=
  invoke (fun t => unlock_escrow t trader asset amount) s

/-- The public `settle_trade` entry point, as observed across the
invocation. -/
def settle_trade_invoke (vrf : Bytes → Bytes → Bool) (now : Nat)
    (match_id : Word) (buyer seller asset_address payment_asset : Addr)
    (quantity price : Int) (proof_bytes pub_signals_bytes : Bytes)
    (s : ContractState) : Except SettlementError SettlementRecord × ContractState :=
  invoke (fun t => settle_trade vrf now t match_id buyer seller asset_address
    payment_asset quantity price proof_bytes pub_signals_bytes) s

/-- An internal escrow transfer viewed across its enclosing invocation: its
error propagates out of `settle_trade` and aborts the whole invocation, so a
failed transfer leaves no partial mutation observable to later operations. -/
def transfer_from_escrow_invoke (sender receiver asset : Addr) (amount : Int)
    (s : ContractState) : Except SettlementError Unit × ContractState :=
  invoke (fun t =>
    match transfer_from_escrow t sender receiver asset amount with
    | .error e => .error e
    | .ok t1 => .ok ((), t1)) s

/-- One public operation of the contract. -/
inductive Op where
  | deposit (participant asset : Addr) (amount : Int)
  | withdraw (participant asset : Addr) (amount : Int)
  | lock_escrow (participant asset : Addr) (amount : Int)
  | unlock_escrow (participant asset : Addr) (amount : Int)
  | settle_trade (vrf : Bytes → Bytes → Bool) (now : Nat) (match_id : Word)
      (buyer seller asset_address payment_asset : Addr) (quantity price : Int)
      (proof_bytes pub_signals_bytes : Bytes)

/-- Result value of a public operation. -/
inductive OpResult where
  | balance (b : Int)
  | unitResult
  | settled (r : SettlementRecord)
deriving DecidableEq

/-- Re-tag the result of a wrapped invocation. -/
def mapStep {α β : Type} (g : α → β)
    (r : Except SettlementError α × ContractState) :
    Except SettlementError β × ContractState :=
  match r with
  | (.error e, t) => (.error e, t)
  | (.ok a, t) => (.ok (g a), t)

/-- Execute one public operation against the contract state. -/
def stepOp : Op → ContractState → Except SettlementError OpResult × ContractState
  | .deposit p a amt, s => mapStep OpResult.balance (deposit_invoke p a amt s)
  | .withdraw p a amt, s => mapStep OpResult.balance (withdraw_invoke p a amt s)
  | .lock_escrow p a amt, s =>
      mapStep (fun _ => OpResult.unitResult) (lock_escrow_invoke p a amt s)
  | .unlock_escrow p a amt, s =>
      mapStep (fun _ => OpResult.unitResult) (unlock_escrow_invoke p a amt s)
  | .settle_trade vrf now mid b sl aa pa q pr pf ps, s =>
      mapStep OpResult.settled (settle_trade_invoke vrf now mid b sl aa pa q pr pf ps s)

/-- The state after one public operation. -/
def applyOp (op : Op) (s : ContractState) : ContractState := (stepOp op s).2

/-- Did the operation succeed? -/
def exceptOk {ε α : Type} : Except ε α → Bool
  | .ok _ => true
  | .error _ => false

/-- The nullifier a `settle_trade` call would consume: defined when the call
is a settlement whose payload decodes to exactly 7 signals, and then equal to
signal index 0. -/
def settleNullifier : Op → Option Word
  | .settle_trade _ _ _ _ _ _ _ _ _ _ ps =>
    match parse_public_signals ps with
    | .ok sigs => if sigs.length = 7 then some (sigs.headD []) else none
    | .error _ => none
  | _ => none

/-- A balance-ledger operation (the four public balance entry points). -/
inductive LedgerOp where
  | deposit (participant asset : Addr) (amount : Int)
  | withdraw (participant asset : Addr) (amount : Int)
  | lock_escrow (participant asset : Addr) (amount : Int)
  | unlock_escrow (participant asset : Addr) (amount : Int)
deriving DecidableEq

/-- The amount argument of a ledger operation. -/
def LedgerOp.amount : LedgerOp → Int
  | .deposit _ _ amt => amt
  | .withdraw _ _ amt => amt
  | .lock_escrow _ _ amt => amt
  | .unlock_escrow _ _ amt => amt

/-- View a ledger operation as a public operation. -/
def LedgerOp.toOp : LedgerOp → Op
  | .deposit p a amt => Op.deposit p a amt
  | .withdraw p a amt => Op.withdraw p a amt
  | .lock_escrow p a amt => Op.lock_escrow p a amt
  | .unlock_escrow p a amt => Op.unlock_escrow p a amt

/-- Run a sequence of balance-ledger operations. -/
def applyLedgerOps (ops : List LedgerOp) (s : ContractState) : ContractState :=
  ops.foldl (fun t op => applyOp op.toOp t) s

/-- The locked-does-not-exceed-escrow ledger invariant. -/
def LedgerInv (s : ContractState) : Prop :=
  ∀ p a : Addr, s.locked (p, a) ≤ s.escrow (p, a)

/-- A well-formed sample payload: count 7, then seven zero fields. -/
def samplePayload : Bytes := [0, 0, 0, 7] ++ List.replicate 224 0

/-- The 32-byte zero word (the nullifier of `samplePayload`). -/
def sampleWord : Word := List.replicate 32 0

example : parse_public_signals samplePayload = .ok (List.replicate 7 sampleWord) := by
  rfl

example : be32 [0, 0, 0, 7] = 7 := by rfl

/-! ### Helper lemmas -/

theorem setBal_same (f : Addr × Addr → Int) (k : Addr × Addr) (v : Int) :
    setBal f k v k = v := by
  simp [setBal]

theorem setBal_other (f : Addr × Addr → Int) (k k2 : Addr × Addr) (v : Int)
    (h : k2 ≠ k) : setBal f k v k2 = f k2 := by
  simp [setBal, h]

theorem invoke_of_error {α : Type}
    (f : ContractState → Except SettlementError (α × ContractState))
    (s : ContractState) (e : SettlementError) (h : f s = .error e) :
    invoke f s = (.error e, s) := by
  simp [invoke, h]

theorem invoke_of_ok {α : Type}
    (f : ContractState → Except SettlementError (α × ContractState))
    (s : ContractState) (a : α) (t : ContractState) (h : f s = .ok (a, t)) :
    invoke f s = (.ok a, t) := by
  simp [invoke, h]

theorem invoke_error_state {α : Type}
    (f : ContractState → Except SettlementError (α × ContractState))
    (s : ContractState) (e : SettlementError)
    (h : (invoke f s).1 = .error e) : (invoke f s).2 = s := by
  unfold invoke at h ⊢
  cases hf : f s with
  | error e2 => simp [hf]
  | ok p => simp [hf] at h

theorem readFields_ok (bytes : Bytes) :
    ∀ k pos, pos + 32 * k ≤ bytes.length →
      readFields bytes pos k =
        .ok ((List.range k).map (fun i => (bytes.drop (pos + 32 * i)).take 32)) := by
  intro k
  induction k with
  | zero =>
    intro pos _
    simp [readFields]
  | succ n ih =>
    intro pos h
    have h32 : ¬ (pos + 32 > bytes.length) := by omega
    have hrec := ih (pos + 32) (by omega)
    rw [readFields]
    simp only [h32, if_false, hrec]
    rw [List.range_succ_eq_map, List.map_cons, List.map_map]
    have harg : (fun i => (bytes.drop (pos + 32 * i)).take 32) ∘ Nat.succ =
        fun i => (bytes.drop (pos + 32 + 32 * i)).take 32 := by
      funext i
      have : pos + 32 * Nat.succ i = pos + 32 + 32 * i := by omega
      simp [Function.comp, this]
    rw [harg]
    simp

theorem readFields_err (bytes : Bytes) :
    ∀ k pos, bytes.length < pos + 32 * (k + 1) →
      readFields bytes pos (k + 1) = .error .InvalidProof := by
  intro k
  induction k with
  | zero =>
    intro pos h
    have hc : pos + 32 > bytes.length := by omega
    simp [readFields, hc]
  | succ n ih =>
    intro pos h
    by_cases hc : pos + 32 > bytes.length
    · simp [readFields, hc]
    · have hrec := ih (pos + 32) (by omega)
      rw [readFields]
      simp [hc, hrec]

theorem readFields_error_eq (bytes : Bytes) :
    ∀ k pos e, readFields bytes pos k = .error e → e = .InvalidProof := by
  intro k
  induction k with
  | zero =>
    intro pos e h
    simp [readFields] at h
  | succ n ih =>
    intro pos e h
    rw [readFields] at h
    by_cases hc : pos + 32 > bytes.length
    · simp [hc] at h
      exact h.symm
    · simp [hc] at h
      cases hrec : readFields bytes (pos + 32) n with
      | error e2 =>
        rw [hrec] at h
        simp at h
        exact h ▸ ih (pos + 32) e2 hrec
      | ok rest =>
        rw [hrec] at h
        simp at h

theorem parse_error_eq (bytes : Bytes) (e : SettlementError)
    (h : parse_public_signals bytes = .error e) : e = .InvalidProof := by
  unfold parse_public_signals at h
  by_cases hlen : bytes.length < 4
  · simp [hlen] at h
    exact h.symm
  · simp [hlen] at h
    exact readFields_error_eq bytes _ 4 e h

theorem transfer_from_escrow_locked_err (s : ContractState)
    (sender receiver asset : Addr) (amount : Int)
    (h : s.locked (sender, asset) < amount) :
    transfer_from_escrow s sender receiver asset amount =
      .error .InsufficientLockedFunds := by
  simp [transfer_from_escrow, subtract_locked_balance, h]

theorem transfer_from_escrow_escrow_err (s : ContractState)
    (sender receiver asset : Addr) (amount : Int)
    (h1 : amount ≤ s.locked (sender, asset))
    (h2 : s.escrow (sender, asset) < amount) :
    transfer_from_escrow s sender receiver asset amount =
      .error .InsufficientEscrow := by
  have h1' : ¬ s.locked (sender, asset) < amount := not_lt.mpr h1
  simp [transfer_from_escrow, subtract_locked_balance, subtract_escrow_balance,
    h1', h2]

theorem transfer_from_escrow_ok (s : ContractState)
    (sender receiver asset : Addr) (amount : Int)
    (h1 : amount ≤ s.locked (sender, asset))
    (h2 : amount ≤ s.escrow (sender, asset)) :
    transfer_from_escrow s sender receiver asset amount =
      .ok { s with
        locked := setBal s.locked (sender, asset) (s.locked (sender, asset) - amount),
        escrow :=
          setBal (setBal s.escrow (sender, asset) (s.escrow (sender, asset) - amount))
            (receiver, asset)
            (setBal s.escrow (sender, asset) (s.escrow (sender, asset) - amount)
              (receiver, asset) + amount) } := by
  have h1' : ¬ s.locked (sender, asset) < amount := not_lt.mpr h1
  have h2' : ¬ s.escrow (sender, asset) < amount := not_lt.mpr h2
  simp [transfer_from_escrow, subtract_locked_balance, subtract_escrow_balance,
    add_escrow_balance, h1', h2']

theorem transfer_from_escrow_error_cases (s : ContractState)
    (sender receiver asset : Addr) (amount : Int) (e : SettlementError)
    (h : transfer_from_escrow s sender receiver asset amount = .error e) :
    (s.locked (sender, asset) < amount ∧ e = .InsufficientLockedFunds) ∨
    (amount ≤ s.locked (sender, asset) ∧ s.escrow (sender, asset) < amount ∧
      e = .InsufficientEscrow) := by
  by_cases hl : s.locked (sender, asset) < amount
  · rw [transfer_from_escrow_locked_err s sender receiver asset amount hl] at h
    left
    exact ⟨hl, by injection h with h2; exact h2.symm⟩
  · have hl' := not_lt.mp hl
    by_cases he : s.escrow (sender, asset) < amount
    · rw [transfer_from_escrow_escrow_err s sender receiver asset amount hl' he] at h
      right
      exact ⟨hl', he, by injection h with h2; exact h2.symm⟩
    · rw [transfer_from_escrow_ok s sender receiver asset amount hl' (not_lt.mp he)] at h
      simp at h

theorem transfer_from_escrow_fields (s : ContractState)
    (sender receiver asset : Addr) (amount : Int) (t : ContractState)
    (h : transfer_from_escrow s sender receiver asset amount = .ok t) :
    t.nullifiers = s.nullifiers ∧ t.settlements = s.settlements ∧
      t.transfers = s.transfers := by
  by_cases hl : s.locked (sender, asset) < amount
  · rw [transfer_from_escrow_locked_err s sender receiver asset amount hl] at h
    simp at h
  · by_cases he : s.escrow (sender, asset) < amount
    · rw [transfer_from_escrow_escrow_err s sender receiver asset amount
        (not_lt.mp hl) he] at h
      simp at h
    · rw [transfer_from_escrow_ok s sender receiver asset amount
        (not_lt.mp hl) (not_lt.mp he)] at h
      injection h with h2
      rw [← h2]
      exact ⟨rfl, rfl, rfl⟩

theorem deposit_ok (s : ContractState) (p a : Addr) (amt : Int) :
    deposit s p a amt = .ok (s.escrow (p, a) + amt,
      { emitTokenMove s p contractAddress a amt with
        escrow := setBal s.escrow (p, a) (s.escrow (p, a) + amt) }) := by
  simp [deposit, add_escrow_balance, emitTokenMove]

theorem withdraw_insufficient (s : ContractState) (p a : Addr) (amt : Int)
    (h : s.escrow (p, a) - s.locked (p, a) < amt) :
    withdraw s p a amt = .error .InsufficientBalance := by
  simp [withdraw, get_escrow_balance, get_locked_balance, h]

theorem withdraw_escrow_err (s : ContractState) (p a : Addr) (amt : Int)
    (h1 : amt ≤ s.escrow (p, a) - s.locked (p, a)) (h2 : s.escrow (p, a) < amt) :
    withdraw s p a amt = .error .InsufficientEscrow := by
  have h1' : ¬ s.escrow (p, a) - s.locked (p, a) < amt := not_lt.mpr h1
  simp [withdraw, get_escrow_balance, get_locked_balance,
    subtract_escrow_balance, h1', h2]

theorem withdraw_ok (s : ContractState) (p a : Addr) (amt : Int)
    (h1 : amt ≤ s.escrow (p, a) - s.locked (p, a)) (h2 : amt ≤ s.escrow (p, a)) :
    withdraw s p a amt = .ok (s.escrow (p, a) - amt,
      emitTokenMove { s with escrow := setBal s.escrow (p, a) (s.escrow (p, a) - amt) }
        contractAddress p a amt) := by
  have h1' : ¬ s.escrow (p, a) - s.locked (p, a) < amt := not_lt.mpr h1
  have h2' : ¬ s.escrow (p, a) < amt := not_lt.mpr h2
  simp [withdraw, get_escrow_balance, get_locked_balance,
    subtract_escrow_balance, emitTokenMove, h1', h2']

theorem lock_escrow_err (s : ContractState) (p a : Addr) (amt : Int)
    (h : s.escrow (p, a) - s.locked (p, a) < amt) :
    lock_escrow s p a amt = .error .InsufficientEscrow := by
  simp [lock_escrow, get_escrow_balance, get_locked_balance, h]

theorem lock_escrow_ok (s : ContractState) (p a : Addr) (amt : Int)
    (h : amt ≤ s.escrow (p, a) - s.locked (p, a)) :
    lock_escrow s p a amt = .ok ((),
      { s with locked := setBal s.locked (p, a) (s.locked (p, a) + amt) }) := by
  have h' : ¬ s.escrow (p, a) - s.locked (p, a) < amt := not_lt.mpr h
  simp [lock_escrow, get_escrow_balance, get_locked_balance,
    add_locked_balance, h']

theorem unlock_escrow_err (s : ContractState) (p a : Addr) (amt : Int)
    (h : s.locked (p, a) < amt) :
    unlock_escrow s p a amt = .error .InsufficientLockedFunds := by
  simp [unlock_escrow, get_locked_balance, h]

theorem unlock_escrow_ok (s : ContractState) (p a : Addr) (amt : Int)
    (h : amt ≤ s.locked (p, a)) :
    unlock_escrow s p a amt = .ok ((),
      { s with locked := setBal s.locked (p, a) (s.locked (p, a) - amt) }) := by
  have h' : ¬ s.locked (p, a) < amt := not_lt.mpr h
  simp [unlock_escrow, get_locked_balance, subtract_locked_balance, h']

theorem settle_trade_parse_err (vrf : Bytes → Bytes → Bool) (now : Nat)
    (s : ContractState) (mid : Word) (b sl aa pa : Addr) (q pr : Int)
    (pf ps : Bytes) (e : SettlementError)
    (h : parse_public_signals ps = .error e) :
    settle_trade vrf now s mid b sl aa pa q pr pf ps = .error e := by
  simp [settle_trade, h]

theorem settle_trade_len_err (vrf : Bytes → Bytes → Bool) (now : Nat)
    (s : ContractState) (mid : Word) (b sl aa pa : Addr) (q pr : Int)
    (pf ps : Bytes) (sigs : List Word)
    (h : parse_public_signals ps = .ok sigs) (h7 : sigs.length ≠ 7) :
    settle_trade vrf now s mid b sl aa pa q pr pf ps = .error .InvalidProof := by
  simp [settle_trade, h, h7]

theorem settle_trade_used_err (vrf : Bytes → Bytes → Bool) (now : Nat)
    (s : ContractState) (mid : Word) (b sl aa pa : Addr) (q pr : Int)
    (pf ps : Bytes) (sigs : List Word)
    (h : parse_public_signals ps = .ok sigs) (h7 : sigs.length = 7)
    (hu : is_nullifier_used s (sigs.headD []) = true) :
    settle_trade vrf now s mid b sl aa pa q pr pf ps = .error .NullifierUsed := by
  have hu' : is_nullifier_used s (sigs.head?.getD []) = true := by simpa using hu
  simp [settle_trade, h, h7, hu']

theorem settle_trade_verifier_err (vrf : Bytes → Bytes → Bool) (now : Nat)
    (s : ContractState) (mid : Word) (b sl aa pa : Addr) (q pr : Int)
    (pf ps : Bytes) (sigs : List Word)
    (h : parse_public_signals ps = .ok sigs) (h7 : sigs.length = 7)
    (hu : is_nullifier_used s (sigs.headD []) = false)
    (hv : vrf pf ps = false) :
    settle_trade vrf now s mid b sl aa pa q pr pf ps = .error .InvalidProof := by
  have hu' : is_nullifier_used s (sigs.head?.getD []) = false := by simpa using hu
  simp [settle_trade, h, h7, hu', hv]

theorem settle_trade_run (vrf : Bytes → Bytes → Bool) (now : Nat)
    (s : ContractState) (mid : Word) (b sl aa pa : Addr) (q pr : Int)
    (pf ps : Bytes) (sigs : List Word)
    (h : parse_public_signals ps = .ok sigs) (h7 : sigs.length = 7)
    (hu : is_nullifier_used s (sigs.headD []) = false)
    (hv : vrf pf ps = true) :
    settle_trade vrf now s mid b sl aa pa q pr pf ps =
      match transfer_from_escrow s sl b aa q with
      | .error e => .error e
      | .ok s1 =>
        match transfer_from_escrow s1 b sl pa pr with
        | .error e => .error e
        | .ok s2 =>
          .ok (⟨mid, b, sl, aa, q, pr, now, sigs.headD []⟩,
            { s2 with
              nullifiers := s2.nullifiers ++ [sigs.headD []],
              settlements := s2.settlements ++
                [⟨mid, b, sl, aa, q, pr, now, sigs.headD []⟩] }) := by
  have hu' : is_nullifier_used s (sigs.head?.getD []) = false := by simpa using hu
  cases htf1 : transfer_from_escrow s sl b aa q with
  | error e => simp [settle_trade, h, h7, hu', hv, htf1]
  | ok s1 =>
    cases htf2 : transfer_from_escrow s1 b sl pa pr with
    | error e => simp [settle_trade, h, h7, hu', hv, htf1, htf2]
    | ok s2 => simp [settle_trade, h, h7, hu', hv, htf1, htf2, mark_nullifier_used]

theorem settle_trade_ok_inv (vrf : Bytes → Bytes → Bool) (now : Nat)
    (s : ContractState) (mid : Word) (b sl aa pa : Addr) (q pr : Int)
    (pf ps : Bytes) (rec : SettlementRecord) (t : ContractState)
    (h : settle_trade vrf now s mid b sl aa pa q pr pf ps = .ok (rec, t)) :
    ∃ sigs, parse_public_signals ps = .ok sigs ∧ sigs.length = 7 ∧
      rec.nullifier = sigs.headD [] ∧
      is_nullifier_used s (sigs.headD []) = false ∧
      t.nullifiers = s.nullifiers ++ [sigs.headD []] := by
  cases hps : parse_public_signals ps with
  | error e =>
    rw [settle_trade_parse_err vrf now s mid b sl aa pa q pr pf ps e hps] at h
    simp at h
  | ok sigs =>
    by_cases h7 : sigs.length = 7
    · cases hub : is_nullifier_used s (sigs.headD []) with
      | true =>
        rw [settle_trade_used_err vrf now s mid b sl aa pa q pr pf ps sigs hps h7 hub] at h
        simp at h
      | false =>
        cases hvb : vrf pf ps with
        | false =>
          rw [settle_trade_verifier_err vrf now s mid b sl aa pa q pr pf ps sigs
            hps h7 hub hvb] at h
          simp at h
        | true =>
          rw [settle_trade_run vrf now s mid b sl aa pa q pr pf ps sigs
            hps h7 hub hvb] at h
          split at h
          next e htf1 => simp at h
          next s1 htf1 =>
            split at h
            next e htf2 => simp at h
            next s2 htf2 =>
              simp only [Except.ok.injEq, Prod.mk.injEq] at h
              obtain ⟨hrec, ht⟩ := h
              obtain ⟨hn1, _, _⟩ := transfer_from_escrow_fields s sl b aa q s1 htf1
              obtain ⟨hn2, _, _⟩ := transfer_from_escrow_fields s1 b sl pa pr s2 htf2
              refine ⟨sigs, rfl, h7, ?_, hub, ?_⟩
              · rw [← hrec]
              · rw [← ht]
                simp [hn2, hn1]
    · rw [settle_trade_len_err vrf now s mid b sl aa pa q pr pf ps sigs hps h7] at h
      simp at h

theorem mapStep_snd {α β : Type} (g : α → β)
    (r : Except SettlementError α × ContractState) : (mapStep g r).2 = r.2 := by
  rcases r with ⟨fst, snd⟩
  cases fst <;> rfl

theorem mapStep_error {α β : Type} (g : α → β)
    (r : Except SettlementError α × ContractState) (e : SettlementError)
    (h : r.1 = .error e) : (mapStep g r).1 = .error e := by
  rcases r with ⟨fst, snd⟩
  cases fst <;> simp_all [mapStep]

theorem deposit_invoke_eq (p a : Addr) (amt : Int) (s : ContractState) :
    deposit_invoke p a amt s = (.ok (s.escrow (p, a) + amt),
      { emitTokenMove s p contractAddress a amt with
        escrow := setBal s.escrow (p, a) (s.escrow (p, a) + amt) }) := by
  simp only [deposit_invoke]
  exact invoke_of_ok _ s _ _ (deposit_ok s p a amt)

theorem deposit_invoke_nullifiers (p a : Addr) (amt : Int) (s : ContractState) :
    ((deposit_invoke p a amt s).2).nullifiers = s.nullifiers := by
  rw [deposit_invoke_eq]
  rfl

theorem withdraw_invoke_nullifiers (p a : Addr) (amt : Int) (s : ContractState) :
    ((withdraw_invoke p a amt s).2).nullifiers = s.nullifiers := by
  simp only [withdraw_invoke]
  by_cases hc : s.escrow (p, a) - s.locked (p, a) < amt
  · rw [invoke_of_error _ s _ (withdraw_insufficient s p a amt hc)]
  · by_cases he : s.escrow (p, a) < amt
    · rw [invoke_of_error _ s _ (withdraw_escrow_err s p a amt (not_lt.mp hc) he)]
    · rw [invoke_of_ok _ s _ _ (withdraw_ok s p a amt (not_lt.mp hc) (not_lt.mp he))]
      rfl

theorem lock_escrow_invoke_nullifiers (p a : Addr) (amt : Int) (s : ContractState) :
    ((lock_escrow_invoke p a amt s).2).nullifiers = s.nullifiers := by
  simp only [lock_escrow_invoke]
  by_cases hc : s.escrow (p, a) - s.locked (p, a) < amt
  · rw [invoke_of_error _ s _ (lock_escrow_err s p a amt hc)]
  · rw [invoke_of_ok _ s _ _ (lock_escrow_ok s p a amt (not_lt.mp hc))]

theorem unlock_escrow_invoke_nullifiers (p a : Addr) (amt : Int) (s : ContractState) :
    ((unlock_escrow_invoke p a amt s).2).nullifiers = s.nullifiers := by
  simp only [unlock_escrow_invoke]
  by_cases hc : s.locked (p, a) < amt
  · rw [invoke_of_error _ s _ (unlock_escrow_err s p a amt hc)]
  · rw [invoke_of_ok _ s _ _ (unlock_escrow_ok s p a amt (not_lt.mp hc))]

/-! ### Claim theorems -/

/-- Claim C1: for every nullifier value, `is_nullifier_used` is false in the
initial state and stays false across operations that are not a successful
settlement consuming it; it is true forever after the first successful
`settle_trade` whose decoded public signal at index 0 equals it; and every
subsequent `settle_trade` whose decoded 7-signal payload has signal 0 equal
to that nullifier fails with `NullifierUsed` and leaves the whole state — in
particular every escrow and locked balance — unchanged. -/
theorem nullifier_settled_exactly_once (n : Word) :
    is_nullifier_used initState n = false
  ∧ (∀ op s, is_nullifier_used s n = true →
      is_nullifier_used (applyOp op s) n = true)
  ∧ (∀ op s, is_nullifier_used s n = false →
      is_nullifier_used (applyOp op s) n = true →
      settleNullifier op = some n ∧ exceptOk (stepOp op s).1 = true)
  ∧ (∀ op s, settleNullifier op = some n → exceptOk (stepOp op s).1 = true →
      is_nullifier_used (applyOp op s) n = true)
  ∧ (∀ op s, is_nullifier_used s n = true → settleNullifier op = some n →
      stepOp op s = (.error .NullifierUsed, s)) := by
  refine ⟨by simp [is_nullifier_used, initState], ?_, ?_, ?_, ?_⟩
  · intro op s h
    cases op with
    | deposit p a amt =>
      have hn := deposit_invoke_nullifiers p a amt s
      simp only [applyOp, stepOp, mapStep_snd] at h ⊢
      simpa [is_nullifier_used, hn] using h
    | withdraw p a amt =>
      have hn := withdraw_invoke_nullifiers p a amt s
      simp only [applyOp, stepOp, mapStep_snd] at h ⊢
      simpa [is_nullifier_used, hn] using h
    | lock_escrow p a amt =>
      have hn := lock_escrow_invoke_nullifiers p a amt s
      simp only [applyOp, stepOp, mapStep_snd] at h ⊢
      simpa [is_nullifier_used, hn] using h
    | unlock_escrow p a amt =>
      have hn := unlock_escrow_invoke_nullifiers p a amt s
      simp only [applyOp, stepOp, mapStep_snd] at h ⊢
      simpa [is_nullifier_used, hn] using h
    | settle_trade vrf now mid b sl aa pa q pr pf ps =>
      simp only [applyOp, stepOp, mapStep_snd, settle_trade_invoke]
      cases hr : settle_trade vrf now s mid b sl aa pa q pr pf ps with
      | error e =>
        rw [invoke_of_error _ s e hr]
        exact h
      | ok rt =>
        rcases rt with ⟨rec, t⟩
        rw [invoke_of_ok _ s rec t hr]
        obtain ⟨sigs, _, _, _, _, hnl⟩ :=
          settle_trade_ok_inv vrf now s mid b sl aa pa q pr pf ps rec t hr
        simp only [is_nullifier_used, hnl] at h ⊢
        simp only [decide_eq_true_eq] at h ⊢
        exact List.mem_append_left _ h
  · intro op s h0 h1
    cases op with
    | deposit p a amt =>
      have hn := deposit_invoke_nullifiers p a amt s
      simp only [applyOp, stepOp, mapStep_snd] at h1
      simp [is_nullifier_used, hn] at h1
      simp [is_nullifier_used, h1] at h0
    | withdraw p a amt =>
      have hn := withdraw_invoke_nullifiers p a amt s
      simp only [applyOp, stepOp, mapStep_snd] at h1
      simp [is_nullifier_used, hn] at h1
      simp [is_nullifier_used, h1] at h0
    | lock_escrow p a amt =>
      have hn := lock_escrow_invoke_nullifiers p a amt s
      simp only [applyOp, stepOp, mapStep_snd] at h1
      simp [is_nullifier_used, hn] at h1
      simp [is_nullifier_used, h1] at h0
    | unlock_escrow p a amt =>
      have hn := unlock_escrow_invoke_nullifiers p a amt s
      simp only [applyOp, stepOp, mapStep_snd] at h1
      simp [is_nullifier_used, hn] at h1
      simp [is_nullifier_used, h1] at h0
    | settle_trade vrf now mid b sl aa pa q pr pf ps =>
      cases hr : settle_trade vrf now s mid b sl aa pa q pr pf ps with
      | error e =>
        simp only [applyOp, stepOp, mapStep_snd, settle_trade_invoke] at h1
        rw [invoke_of_error _ s e hr] at h1
        rw [h1] at h0
        simp at h0
      | ok rt =>
        rcases rt with ⟨rec, t⟩
        obtain ⟨sigs, hps, h7, hrecn, hub, hnl⟩ :=
          settle_trade_ok_inv vrf now s mid b sl aa pa q pr pf ps rec t hr
        simp only [applyOp, stepOp, mapStep_snd, settle_trade_invoke] at h1
        rw [invoke_of_ok _ s rec t hr] at h1
        simp only [is_nullifier_used, hnl, decide_eq_true_eq] at h1
        simp only [is_nullifier_used, decide_eq_false_iff_not] at h0
        rcases List.mem_append.mp h1 with hmem | hmem
        · exact absurd hmem h0
        · have hn0 : n = sigs.headD [] := by simpa using hmem
          constructor
          · simp [settleNullifier, hps, h7, hn0]
          · have hi := invoke_of_ok
              (fun t2 => settle_trade vrf now t2 mid b sl aa pa q pr pf ps) s rec t hr
            simp [stepOp, settle_trade_invoke, hi, mapStep, exceptOk]
  · intro op s h0 h1
    cases op with
    | deposit p a amt => simp [settleNullifier] at h0
    | withdraw p a amt => simp [settleNullifier] at h0
    | lock_escrow p a amt => simp [settleNullifier] at h0
    | unlock_escrow p a amt => simp [settleNullifier] at h0
    | settle_trade vrf now mid b sl aa pa q pr pf ps =>
      cases hr : settle_trade vrf now s mid b sl aa pa q pr pf ps with
      | error e =>
        simp only [stepOp, settle_trade_invoke] at h1
        rw [invoke_of_error _ s e hr] at h1
        simp [mapStep, exceptOk] at h1
      | ok rt =>
        rcases rt with ⟨rec, t⟩
        obtain ⟨sigs, hps, h7, hrecn, hub, hnl⟩ :=
          settle_trade_ok_inv vrf now s mid b sl aa pa q pr pf ps rec t hr
        have hn0 : sigs.headD [] = n := by
          simp only [settleNullifier, hps, h7, if_true] at h0
          simpa using h0
        have hn0' : sigs.head?.getD [] = n := by
          rw [← List.headD_eq_head?]
          exact hn0
        simp only [applyOp, stepOp, mapStep_snd, settle_trade_invoke]
        rw [invoke_of_ok _ s rec t hr]
        simp [is_nullifier_used, hnl, hn0, hn0']
  · intro op s hu h0
    cases op with
    | deposit p a amt => simp [settleNullifier] at h0
    | withdraw p a amt => simp [settleNullifier] at h0
    | lock_escrow p a amt => simp [settleNullifier] at h0
    | unlock_escrow p a amt => simp [settleNullifier] at h0
    | settle_trade vrf now mid b sl aa pa q pr pf ps =>
      cases hps : parse_public_signals ps with
      | error e => simp [settleNullifier, hps] at h0
      | ok sigs =>
        by_cases h7 : sigs.length = 7
        · have hn0 : sigs.headD [] = n := by
            simp only [settleNullifier, hps, h7, if_true] at h0
            simpa using h0
          have hu' : is_nullifier_used s (sigs.headD []) = true := by
            rw [hn0]
            exact hu
          have hr := settle_trade_used_err vrf now s mid b sl aa pa q pr pf ps
            sigs hps h7 hu'
          simp only [stepOp, settle_trade_invoke]
          rw [invoke_of_error _ s _ hr]
          rfl
        · simp [settleNullifier, hps, h7] at h0

/-- Closed witness for C1: on a concrete run, a first settlement with the
zero nullifier marks it used, and a replay of the same payload fails with
`NullifierUsed` leaving the state unchanged. -/
theorem nullifier_settled_exactly_once_witness :
    is_nullifier_used
      ((stepOp (Op.settle_trade (fun _ _ => true) 0 sampleWord 1 2 3 4 0 0 [] samplePayload) initState).2)
      sampleWord = true
  ∧ stepOp (Op.settle_trade (fun _ _ => true) 5 sampleWord 1 2 3 4 0 0 [] samplePayload)
      ((stepOp (Op.settle_trade (fun _ _ => true) 0 sampleWord 1 2 3 4 0 0 [] samplePayload) initState).2)
    = (.error .NullifierUsed,
      (stepOp (Op.settle_trade (fun _ _ => true) 0 sampleWord 1 2 3 4 0 0 [] samplePayload) initState).2) := by
  constructor
  · exact (nullifier_settled_exactly_once sampleWord).2.2.2.1
      (Op.settle_trade (fun _ _ => true) 0 sampleWord 1 2 3 4 0 0 [] samplePayload)
      initState (by rfl) (by rfl)
  · exact (nullifier_settled_exactly_once sampleWord).2.2.2.2
      (Op.settle_trade (fun _ _ => true) 5 sampleWord 1 2 3 4 0 0 [] samplePayload)
      ((stepOp (Op.settle_trade (fun _ _ => true) 0 sampleWord 1 2 3 4 0 0 [] samplePayload) initState).2)
      (by rfl) (by rfl)

theorem LedgerInv_deposit_invoke (p a : Addr) (amt : Int) (hamt : 0 ≤ amt)
    (s : ContractState) (hs : LedgerInv s) :
    LedgerInv ((deposit_invoke p a amt s).2) := by
  rw [deposit_invoke_eq]
  intro p2 a2
  simp only [emitTokenMove]
  by_cases hk : ((p2, a2) : Addr × Addr) = (p, a)
  · rw [hk, setBal_same]
    have := hs p a
    omega
  · rw [setBal_other s.escrow (p, a) (p2, a2) _ hk]
    exact hs p2 a2

theorem LedgerInv_withdraw_invoke (p a : Addr) (amt : Int)
    (s : ContractState) (hs : LedgerInv s) :
    LedgerInv ((withdraw_invoke p a amt s).2) := by
  simp only [withdraw_invoke]
  by_cases hc : s.escrow (p, a) - s.locked (p, a) < amt
  · rw [invoke_of_error _ s _ (withdraw_insufficient s p a amt hc)]
    exact hs
  · by_cases he : s.escrow (p, a) < amt
    · rw [invoke_of_error _ s _ (withdraw_escrow_err s p a amt (not_lt.mp hc) he)]
      exact hs
    · rw [invoke_of_ok _ s _ _ (withdraw_ok s p a amt (not_lt.mp hc) (not_lt.mp he))]
      intro p2 a2
      simp only [emitTokenMove]
      by_cases hk : ((p2, a2) : Addr × Addr) = (p, a)
      · rw [hk, setBal_same]
        have := not_lt.mp hc
        omega
      · rw [setBal_other s.escrow (p, a) (p2, a2) _ hk]
        exact hs p2 a2

theorem LedgerInv_lock_escrow_invoke (p a : Addr) (amt : Int)
    (s : ContractState) (hs : LedgerInv s) :
    LedgerInv ((lock_escrow_invoke p a amt s).2) := by
  simp only [lock_escrow_invoke]
  by_cases hc : s.escrow (p, a) - s.locked (p, a) < amt
  · rw [invoke_of_error _ s _ (lock_escrow_err s p a amt hc)]
    exact hs
  · rw [invoke_of_ok _ s _ _ (lock_escrow_ok s p a amt (not_lt.mp hc))]
    intro p2 a2
    by_cases hk : ((p2, a2) : Addr × Addr) = (p, a)
    · rw [hk]
      show setBal s.locked (p, a) (s.locked (p, a) + amt) (p, a) ≤ s.escrow (p, a)
      rw [setBal_same]
      have := not_lt.mp hc
      omega
    · show setBal s.locked (p, a) (s.locked (p, a) + amt) (p2, a2) ≤ s.escrow (p2, a2)
      rw [setBal_other s.locked (p, a) (p2, a2) _ hk]
      exact hs p2 a2

theorem LedgerInv_unlock_escrow_invoke (p a : Addr) (amt : Int) (hamt : 0 ≤ amt)
    (s : ContractState) (hs : LedgerInv s) :
    LedgerInv ((unlock_escrow_invoke p a amt s).2) := by
  simp only [unlock_escrow_invoke]
  by_cases hc : s.locked (p, a) < amt
  · rw [invoke_of_error _ s _ (unlock_escrow_err s p a amt hc)]
    exact hs
  · rw [invoke_of_ok _ s _ _ (unlock_escrow_ok s p a amt (not_lt.mp hc))]
    intro p2 a2
    by_cases hk : ((p2, a2) : Addr × Addr) = (p, a)
    · rw [hk]
      show setBal s.locked (p, a) (s.locked (p, a) - amt) (p, a) ≤ s.escrow (p, a)
      rw [setBal_same]
      have := hs p a
      omega
    · show setBal s.locked (p, a) (s.locked (p, a) - amt) (p2, a2) ≤ s.escrow (p2, a2)
      rw [setBal_other s.locked (p, a) (p2, a2) _ hk]
      exact hs p2 a2

theorem LedgerInv_step (op : LedgerOp) (hamt : 0 ≤ op.amount)
    (s : ContractState) (hs : LedgerInv s) : LedgerInv (applyOp op.toOp s) := by
  cases op with
  | deposit p a amt =>
    simp only [LedgerOp.amount] at hamt
    simp only [LedgerOp.toOp, applyOp, stepOp, mapStep_snd]
    exact LedgerInv_deposit_invoke p a amt hamt s hs
  | withdraw p a amt =>
    simp only [LedgerOp.toOp, applyOp, stepOp, mapStep_snd]
    exact LedgerInv_withdraw_invoke p a amt s hs
  | lock_escrow p a amt =>
    simp only [LedgerOp.toOp, applyOp, stepOp, mapStep_snd]
    exact LedgerInv_lock_escrow_invoke p a amt s hs
  | unlock_escrow p a amt =>
    simp only [LedgerOp.amount] at hamt
    simp only [LedgerOp.toOp, applyOp, stepOp, mapStep_snd]
    exact LedgerInv_unlock_escrow_invoke p a amt hamt s hs

/-- Claim C2 (counterexample): with an arbitrary `i128` amount argument the
invariant fails — a single `unlock_escrow` of amount `-1` from the initial
state succeeds (both guards compare with `<` and pass for negative amounts)
and leaves `LockedBalance = 1 > 0 = EscrowBalance` at the key `(0, 0)`. -/
theorem escrow_lock_invariant_cex :
    ¬ ((applyLedgerOps [LedgerOp.unlock_escrow 0 0 (-1)] initState).locked (0, 0) ≤
       (applyLedgerOps [LedgerOp.unlock_escrow 0 0 (-1)] initState).escrow (0, 0)) := by
  decide

/-- Claim C2 (amended): for every participant and asset, after any sequence
of `deposit`, `withdraw`, `lock_escrow` and `unlock_escrow` operations whose
amount arguments are nonnegative, `LockedBalance ≤ EscrowBalance` holds at
every key when observed after each operation (the code does not preserve the
invariant for negative amounts, see the counterexample). -/
theorem escrow_lock_invariant_nonneg (ops : List LedgerOp)
    (hnn : ∀ op ∈ ops, 0 ≤ op.amount) (s : ContractState) (hs : LedgerInv s) :
    LedgerInv (applyLedgerOps ops s) := by
  induction ops generalizing s with
  | nil => simpa [applyLedgerOps] using hs
  | cons op rest ih =>
    have h1 : 0 ≤ op.amount := hnn op (List.mem_cons_self op rest)
    have h2 : ∀ o ∈ rest, 0 ≤ o.amount := fun o ho => hnn o (List.mem_cons_of_mem op ho)
    have hstep := LedgerInv_step op h1 s hs
    simpa [applyLedgerOps] using ih h2 (applyOp op.toOp s) hstep

/-- Closed witness for the amended C2 on a concrete nonnegative run. -/
theorem escrow_lock_invariant_nonneg_witness :
    (∀ op ∈ [LedgerOp.deposit 1 2 10, LedgerOp.lock_escrow 1 2 4,
      LedgerOp.withdraw 1 2 3, LedgerOp.unlock_escrow 1 2 4], 0 ≤ op.amount)
  ∧ LedgerInv (applyLedgerOps [LedgerOp.deposit 1 2 10, LedgerOp.lock_escrow 1 2 4,
      LedgerOp.withdraw 1 2 3, LedgerOp.unlock_escrow 1 2 4] initState) := by
  constructor
  · decide
  · exact escrow_lock_invariant_nonneg
      [LedgerOp.deposit 1 2 10, LedgerOp.lock_escrow 1 2 4,
        LedgerOp.withdraw 1 2 3, LedgerOp.unlock_escrow 1 2 4]
      (by decide) initState (fun p a => le_refl 0)

theorem settle_trade_leg1_err (vrf : Bytes → Bytes → Bool) (now : Nat)
    (s : ContractState) (mid : Word) (b sl aa pa : Addr) (q pr : Int)
    (pf ps : Bytes) (sigs : List Word) (e : SettlementError)
    (hps : parse_public_signals ps = .ok sigs) (h7 : sigs.length = 7)
    (hu : is_nullifier_used s (sigs.headD []) = false) (hv : vrf pf ps = true)
    (h1 : transfer_from_escrow s sl b aa q = .error e) :
    settle_trade vrf now s mid b sl aa pa q pr pf ps = .error e := by
  rw [settle_trade_run vrf now s mid b sl aa pa q pr pf ps sigs hps h7 hu hv]
  simp only [h1]

theorem settle_trade_leg2_err (vrf : Bytes → Bytes → Bool) (now : Nat)
    (s : ContractState) (mid : Word) (b sl aa pa : Addr) (q pr : Int)
    (pf ps : Bytes) (sigs : List Word) (s1 : ContractState) (e : SettlementError)
    (hps : parse_public_signals ps = .ok sigs) (h7 : sigs.length = 7)
    (hu : is_nullifier_used s (sigs.headD []) = false) (hv : vrf pf ps = true)
    (h1 : transfer_from_escrow s sl b aa q = .ok s1)
    (h2 : transfer_from_escrow s1 b sl pa pr = .error e) :
    settle_trade vrf now s mid b sl aa pa q pr pf ps = .error e := by
  rw [settle_trade_run vrf now s mid b sl aa pa q pr pf ps sigs hps h7 hu hv]
  simp only [h1, h2]

theorem settle_trade_legs_ok (vrf : Bytes → Bytes → Bool) (now : Nat)
    (s : ContractState) (mid : Word) (b sl aa pa : Addr) (q pr : Int)
    (pf ps : Bytes) (sigs : List Word) (s1 s2 : ContractState)
    (hps : parse_public_signals ps = .ok sigs) (h7 : sigs.length = 7)
    (hu : is_nullifier_used s (sigs.headD []) = false) (hv : vrf pf ps = true)
    (h1 : transfer_from_escrow s sl b aa q = .ok s1)
    (h2 : transfer_from_escrow s1 b sl pa pr = .ok s2) :
    settle_trade vrf now s mid b sl aa pa q pr pf ps =
      .ok (⟨mid, b, sl, aa, q, pr, now, sigs.headD []⟩,
        { s2 with
          nullifiers := s2.nullifiers ++ [sigs.headD []],
          settlements := s2.settlements ++
            [⟨mid, b, sl, aa, q, pr, now, sigs.headD []⟩] }) := by
  rw [settle_trade_run vrf now s mid b sl aa pa q pr pf ps sigs hps h7 hu hv]
  simp only [h1, h2]

/-- Claim C3: `settle_trade` is all-or-nothing.  Whenever the invocation
returns an error, the post state equals the pre state, so no escrow balance,
locked balance, nullifier-registry entry or settlement-journal entry
changes; when the verifier reports the proof invalid the error is
`InvalidProof`; when the seller's locked traded-asset balance is below the
quantity the error is `InsufficientLockedFunds` and the nullifier stays
unmarked, so a later retry with the same nullifier is not blocked; and when
the second (payment) leg fails after the first leg succeeded, the call still
rolls back whole, returning `InsufficientLockedFunds` with the pre state. -/
theorem settle_trade_all_or_nothing (vrf : Bytes → Bytes → Bool) (now : Nat)
    (mid : Word) (b sl aa pa : Addr) (q pr : Int) (pf ps : Bytes)
    (s : ContractState) :
    (∀ e, (settle_trade_invoke vrf now mid b sl aa pa q pr pf ps s).1 = .error e →
      (settle_trade_invoke vrf now mid b sl aa pa q pr pf ps s).2 = s)
  ∧ (∀ sigs, parse_public_signals ps = .ok sigs → sigs.length = 7 →
      is_nullifier_used s (sigs.headD []) = false → vrf pf ps = false →
      settle_trade_invoke vrf now mid b sl aa pa q pr pf ps s =
        (.error .InvalidProof, s))
  ∧ (∀ sigs, parse_public_signals ps = .ok sigs → sigs.length = 7 →
      is_nullifier_used s (sigs.headD []) = false → vrf pf ps = true →
      s.locked (sl, aa) < q →
      settle_trade_invoke vrf now mid b sl aa pa q pr pf ps s =
        (.error .InsufficientLockedFunds, s)
      ∧ is_nullifier_used
          ((settle_trade_invoke vrf now mid b sl aa pa q pr pf ps s).2)
          (sigs.headD []) = false)
  ∧ (∀ sigs, parse_public_signals ps = .ok sigs → sigs.length = 7 →
      is_nullifier_used s (sigs.headD []) = false → vrf pf ps = true →
      b ≠ sl → q ≤ s.locked (sl, aa) → q ≤ s.escrow (sl, aa) →
      s.locked (b, pa) < pr →
      settle_trade_invoke vrf now mid b sl aa pa q pr pf ps s =
        (.error .InsufficientLockedFunds, s)) := by
  refine ⟨?_, ?_, ?_, ?_⟩
  · intro e he
    exact invoke_error_state _ s e he
  · intro sigs hps h7 hu hv
    exact invoke_of_error _ s _
      (settle_trade_verifier_err vrf now s mid b sl aa pa q pr pf ps sigs hps h7 hu hv)
  · intro sigs hps h7 hu hv hlk
    have hraw : settle_trade vrf now s mid b sl aa pa q pr pf ps =
        .error .InsufficientLockedFunds :=
      settle_trade_leg1_err vrf now s mid b sl aa pa q pr pf ps sigs _ hps h7 hu hv
        (transfer_from_escrow_locked_err s sl b aa q hlk)
    have hinv := invoke_of_error
      (fun t => settle_trade vrf now t mid b sl aa pa q pr pf ps) s _ hraw
    refine ⟨hinv, ?_⟩
    rw [settle_trade_invoke, hinv]
    exact hu
  · intro sigs hps h7 hu hv hbs hq1 hq2 hl2
    have hkey : ((b, pa) : Addr × Addr) ≠ (sl, aa) := by
      intro hco
      exact hbs (congrArg Prod.fst hco)
    have hs1 := transfer_from_escrow_ok s sl b aa q hq1 hq2
    have hl2' : ({ s with
        locked := setBal s.locked (sl, aa) (s.locked (sl, aa) - q),
        escrow := setBal (setBal s.escrow (sl, aa) (s.escrow (sl, aa) - q))
          (b, aa)
          (setBal s.escrow (sl, aa) (s.escrow (sl, aa) - q) (b, aa) + q) } :
        ContractState).locked (b, pa) < pr := by
      show setBal s.locked (sl, aa) (s.locked (sl, aa) - q) (b, pa) < pr
      rw [setBal_other s.locked (sl, aa) (b, pa) _ hkey]
      exact hl2
    have hraw : settle_trade vrf now s mid b sl aa pa q pr pf ps =
        .error .InsufficientLockedFunds :=
      settle_trade_leg2_err vrf now s mid b sl aa pa q pr pf ps sigs _ _
        hps h7 hu hv hs1
        (transfer_from_escrow_locked_err _ b sl pa pr hl2')
    exact invoke_of_error _ s _ hraw

/-- Closed witness for C3: a concrete settlement whose seller has no locked
funds fails with `InsufficientLockedFunds` and leaves the state unchanged. -/
theorem settle_trade_all_or_nothing_witness :
    parse_public_signals samplePayload = .ok (List.replicate 7 sampleWord)
  ∧ (List.replicate 7 sampleWord).length = 7
  ∧ is_nullifier_used initState ((List.replicate 7 sampleWord).headD []) = false
  ∧ (fun _ _ => true : Bytes → Bytes → Bool) [] samplePayload = true
  ∧ initState.locked (2, 3) < 10
  ∧ settle_trade_invoke (fun _ _ => true) 0 sampleWord 1 2 3 4 10 500 [] samplePayload
      initState = (.error .InsufficientLockedFunds, initState)
  ∧ is_nullifier_used
      ((settle_trade_invoke (fun _ _ => true) 0 sampleWord 1 2 3 4 10 500 [] samplePayload
        initState).2) ((List.replicate 7 sampleWord).headD []) = false := by
  refine ⟨by rfl, by rfl, by rfl, by rfl, by decide, ?_, ?_⟩
  · exact ((settle_trade_all_or_nothing (fun _ _ => true) 0 sampleWord 1 2 3 4 10 500
      [] samplePayload initState).2.2.1 (List.replicate 7 sampleWord)
      (by rfl) (by rfl) (by rfl) (by rfl) (by decide)).1
  · exact ((settle_trade_all_or_nothing (fun _ _ => true) 0 sampleWord 1 2 3 4 10 500
      [] samplePayload initState).2.2.1 (List.replicate 7 sampleWord)
      (by rfl) (by rfl) (by rfl) (by rfl) (by decide)).2

/-- A concrete pre-state for Scenario C: buyer 1 holds 500 of payment asset 4
escrowed and locked, seller 2 holds 10 of traded asset 3 escrowed and
locked. -/
def scenarioState : ContractState where
  escrow := fun k => if k = (2, 3) then 10 else if k = (1, 4) then 500 else 0
  locked := fun k => if k = (2, 3) then 10 else if k = (1, 4) then 500 else 0
  nullifiers := []
  settlements := []
  transfers := []

/-- Claim C4: Scenario C.  From any state where the buyer has at least 500 of
the payment asset escrowed and locked and the seller at least 10 of the
traded asset escrowed and locked, a successful `settle_trade` with quantity
10 and price 500 decreases the seller's traded-asset escrow and locked
balances by 10, increases the buyer's traded-asset escrow by 10, decreases
the buyer's payment-asset escrow and locked balances by 500, increases the
seller's payment-asset escrow by 500, changes no other balance entry,
appends exactly one `SettlementRecord` carrying the supplied match
identifier, and marks the nullifier (decoded signal index 0) used. -/
theorem settle_trade_scenario_c (vrf : Bytes → Bytes → Bool) (now : Nat)
    (mid : Word) (B S aa pa : Addr) (pf ps : Bytes) (sigs : List Word)
    (s : ContractState)
    (hBS : B ≠ S) (hap : aa ≠ pa)
    (hps : parse_public_signals ps = .ok sigs) (h7 : sigs.length = 7)
    (hu : is_nullifier_used s (sigs.headD []) = false)
    (hv : vrf pf ps = true)
    (hS1 : 10 ≤ s.locked (S, aa)) (hS2 : 10 ≤ s.escrow (S, aa))
    (hB1 : 500 ≤ s.locked (B, pa)) (hB2 : 500 ≤ s.escrow (B, pa)) :
    (settle_trade_invoke vrf now mid B S aa pa 10 500 pf ps s).1 =
      .ok ⟨mid, B, S, aa, 10, 500, now, sigs.headD []⟩
  ∧ (settle_trade_invoke vrf now mid B S aa pa 10 500 pf ps s).2.escrow (S, aa) =
      s.escrow (S, aa) - 10
  ∧ (settle_trade_invoke vrf now mid B S aa pa 10 500 pf ps s).2.locked (S, aa) =
      s.locked (S, aa) - 10
  ∧ (settle_trade_invoke vrf now mid B S aa pa 10 500 pf ps s).2.escrow (B, aa) =
      s.escrow (B, aa) + 10
  ∧ (settle_trade_invoke vrf now mid B S aa pa 10 500 pf ps s).2.escrow (B, pa) =
      s.escrow (B, pa) - 500
  ∧ (settle_trade_invoke vrf now mid B S aa pa 10 500 pf ps s).2.locked (B, pa) =
      s.locked (B, pa) - 500
  ∧ (settle_trade_invoke vrf now mid B S aa pa 10 500 pf ps s).2.escrow (S, pa) =
      s.escrow (S, pa) + 500
  ∧ (∀ k, k ≠ (S, aa) → k ≠ (B, aa) → k ≠ (B, pa) → k ≠ (S, pa) →
      (settle_trade_invoke vrf now mid B S aa pa 10 500 pf ps s).2.escrow k =
        s.escrow k)
  ∧ (∀ k, k ≠ (S, aa) → k ≠ (B, pa) →
      (settle_trade_invoke vrf now mid B S aa pa 10 500 pf ps s).2.locked k =
        s.locked k)
  ∧ (settle_trade_invoke vrf now mid B S aa pa 10 500 pf ps s).2.settlements =
      s.settlements ++ [⟨mid, B, S, aa, 10, 500, now, sigs.headD []⟩]
  ∧ is_nullifier_used
      ((settle_trade_invoke vrf now mid B S aa pa 10 500 pf ps s).2)
      (sigs.headD []) = true := by
  have n7 : ((B, pa) : Addr × Addr) ≠ (S, aa) := fun h => hBS (congrArg Prod.fst h)
  have n8 : ((B, pa) : Addr × Addr) ≠ (B, aa) := fun h =>
    (Ne.symm hap) (congrArg Prod.snd h)
  have hs1 := transfer_from_escrow_ok s S B aa 10 hS1 hS2
  have hleg2l : (500 : Int) ≤ setBal s.locked (S, aa) (s.locked (S, aa) - 10) (B, pa) := by
    rw [setBal_other s.locked (S, aa) (B, pa) _ n7]
    exact hB1
  have hleg2e : (500 : Int) ≤
      setBal (setBal s.escrow (S, aa) (s.escrow (S, aa) - 10)) (B, aa)
        (setBal s.escrow (S, aa) (s.escrow (S, aa) - 10) (B, aa) + 10) (B, pa) := by
    rw [setBal_other _ (B, aa) (B, pa) _ n8,
      setBal_other s.escrow (S, aa) (B, pa) _ n7]
    exact hB2
  have hs2 := transfer_from_escrow_ok
    { s with
      locked := setBal s.locked (S, aa) (s.locked (S, aa) - 10),
      escrow := setBal (setBal s.escrow (S, aa) (s.escrow (S, aa) - 10)) (B, aa)
        (setBal s.escrow (S, aa) (s.escrow (S, aa) - 10) (B, aa) + 10) }
    B S pa 500 hleg2l hleg2e
  have hfin := settle_trade_legs_ok vrf now s mid B S aa pa 10 500 pf ps sigs _ _
    hps h7 hu hv hs1 hs2
  have hinv := invoke_of_ok
    (fun t => settle_trade vrf now t mid B S aa pa 10 500 pf ps) s _ _ hfin
  simp only [settle_trade_invoke]
  rw [hinv]
  refine ⟨rfl, ?_, ?_, ?_, ?_, ?_, ?_, ?_, ?_, ?_, ?_⟩
  · simp [setBal, Prod.mk.injEq, hBS, hap, Ne.symm hBS, Ne.symm hap]
  · simp [setBal, Prod.mk.injEq, hBS, hap, Ne.symm hBS, Ne.symm hap]
  · simp [setBal, Prod.mk.injEq, hBS, hap, Ne.symm hBS, Ne.symm hap]
  · simp [setBal, Prod.mk.injEq, hBS, hap, Ne.symm hBS, Ne.symm hap]
  · simp [setBal, Prod.mk.injEq, hBS, hap, Ne.symm hBS, Ne.symm hap]
  · simp [setBal, Prod.mk.injEq, hBS, hap, Ne.symm hBS, Ne.symm hap]
  · intro k hk1 hk2 hk3 hk4
    simp [setBal, hk1, hk2, hk3, hk4]
  · intro k hk1 hk2
    simp [setBal, hk1, hk2]
  · rfl
  · simp [is_nullifier_used]

/-- Closed witness for C4 on the concrete `scenarioState`. -/
theorem settle_trade_scenario_c_witness :
    (1 : Addr) ≠ 2 ∧ (3 : Addr) ≠ 4
  ∧ parse_public_signals samplePayload = .ok (List.replicate 7 sampleWord)
  ∧ is_nullifier_used scenarioState ((List.replicate 7 sampleWord).headD []) = false
  ∧ (10 : Int) ≤ scenarioState.locked (2, 3) ∧ (10 : Int) ≤ scenarioState.escrow (2, 3)
  ∧ (500 : Int) ≤ scenarioState.locked (1, 4) ∧ (500 : Int) ≤ scenarioState.escrow (1, 4)
  ∧ (settle_trade_invoke (fun _ _ => true) 77 sampleWord 1 2 3 4 10 500 [] samplePayload
      scenarioState).1 =
      .ok ⟨sampleWord, 1, 2, 3, 10, 500, 77, (List.replicate 7 sampleWord).headD []⟩
  ∧ (settle_trade_invoke (fun _ _ => true) 77 sampleWord 1 2 3 4 10 500 [] samplePayload
      scenarioState).2.escrow (2, 3) = scenarioState.escrow (2, 3) - 10
  ∧ (settle_trade_invoke (fun _ _ => true) 77 sampleWord 1 2 3 4 10 500 [] samplePayload
      scenarioState).2.escrow (1, 4) = scenarioState.escrow (1, 4) - 500
  ∧ (settle_trade_invoke (fun _ _ => true) 77 sampleWord 1 2 3 4 10 500 [] samplePayload
      scenarioState).2.settlements = scenarioState.settlements ++
      [⟨sampleWord, 1, 2, 3, 10, 500, 77, (List.replicate 7 sampleWord).headD []⟩]
  ∧ is_nullifier_used
      ((settle_trade_invoke (fun _ _ => true) 77 sampleWord 1 2 3 4 10 500 [] samplePayload
        scenarioState).2) ((List.replicate 7 sampleWord).headD []) = true := by
  refine ⟨by decide, by decide, by rfl, by rfl, by decide, by decide, by decide,
    by decide, ?_, ?_, ?_, ?_, ?_⟩
  · exact (settle_trade_scenario_c (fun _ _ => true) 77 sampleWord 1 2 3 4 [] samplePayload
      (List.replicate 7 sampleWord) scenarioState (by decide) (by decide) (by rfl) (by rfl)
      (by rfl) (by rfl) (by decide) (by decide) (by decide) (by decide)).1
  · exact (settle_trade_scenario_c (fun _ _ => true) 77 sampleWord 1 2 3 4 [] samplePayload
      (List.replicate 7 sampleWord) scenarioState (by decide) (by decide) (by rfl) (by rfl)
      (by rfl) (by rfl) (by decide) (by decide) (by decide) (by decide)).2.1
  · exact (settle_trade_scenario_c (fun _ _ => true) 77 sampleWord 1 2 3 4 [] samplePayload
      (List.replicate 7 sampleWord) scenarioState (by decide) (by decide) (by rfl) (by rfl)
      (by rfl) (by rfl) (by decide) (by decide) (by decide) (by decide)).2.2.2.2.1
  · exact (settle_trade_scenario_c (fun _ _ => true) 77 sampleWord 1 2 3 4 [] samplePayload
      (List.replicate 7 sampleWord) scenarioState (by decide) (by decide) (by rfl) (by rfl)
      (by rfl) (by rfl) (by decide) (by decide) (by decide) (by decide)).2.2.2.2.2.2.2.2.2.1
  · exact (settle_trade_scenario_c (fun _ _ => true) 77 sampleWord 1 2 3 4 [] samplePayload
      (List.replicate 7 sampleWord) scenarioState (by decide) (by decide) (by rfl) (by rfl)
      (by rfl) (by rfl) (by decide) (by decide) (by decide) (by decide)).2.2.2.2.2.2.2.2.2.2

theorem transfer_from_escrow_invoke_error (sender receiver asset : Addr)
    (amount : Int) (s : ContractState) (e : SettlementError)
    (h : transfer_from_escrow s sender receiver asset amount = .error e) :
    transfer_from_escrow_invoke sender receiver asset amount s = (.error e, s) := by
  simp [transfer_from_escrow_invoke, invoke, h]

theorem transfer_from_escrow_invoke_ok (sender receiver asset : Addr)
    (amount : Int) (s t : ContractState)
    (h : transfer_from_escrow s sender receiver asset amount = .ok t) :
    transfer_from_escrow_invoke sender receiver asset amount s = (.ok (), t) := by
  simp [transfer_from_escrow_invoke, invoke, h]

/-- Claim C5: `transfer_from_escrow`, viewed across its enclosing atomic
invocation, decrements the sender's locked balance (failing with
`InsufficientLockedFunds` when it is below the amount), decrements the
sender's escrow balance (failing with `InsufficientEscrow` when it is below
the amount), then increments the receiver's escrow balance; and any failing
sub-step aborts the whole transfer with the pre state observable, i.e. no
partial mutation. -/
theorem transfer_from_escrow_spec (sender receiver asset : Addr)
    (amount : Int) (s : ContractState) :
    (s.locked (sender, asset) < amount →
      transfer_from_escrow_invoke sender receiver asset amount s =
        (.error .InsufficientLockedFunds, s))
  ∧ (amount ≤ s.locked (sender, asset) → s.escrow (sender, asset) < amount →
      transfer_from_escrow_invoke sender receiver asset amount s =
        (.error .InsufficientEscrow, s))
  ∧ (amount ≤ s.locked (sender, asset) → amount ≤ s.escrow (sender, asset) →
      transfer_from_escrow_invoke sender receiver asset amount s =
        (.ok (), { s with
          locked := setBal s.locked (sender, asset)
            (s.locked (sender, asset) - amount),
          escrow := setBal
            (setBal s.escrow (sender, asset) (s.escrow (sender, asset) - amount))
            (receiver, asset)
            (setBal s.escrow (sender, asset) (s.escrow (sender, asset) - amount)
              (receiver, asset) + amount) }))
  ∧ (∀ e, (transfer_from_escrow_invoke sender receiver asset amount s).1 = .error e →
      (transfer_from_escrow_invoke sender receiver asset amount s).2 = s) := by
  refine ⟨?_, ?_, ?_, ?_⟩
  · intro h
    exact transfer_from_escrow_invoke_error sender receiver asset amount s _
      (transfer_from_escrow_locked_err s sender receiver asset amount h)
  · intro h1 h2
    exact transfer_from_escrow_invoke_error sender receiver asset amount s _
      (transfer_from_escrow_escrow_err s sender receiver asset amount h1 h2)
  · intro h1 h2
    exact transfer_from_escrow_invoke_ok sender receiver asset amount s _
      (transfer_from_escrow_ok s sender receiver asset amount h1 h2)
  · intro e he
    simp only [transfer_from_escrow_invoke] at he ⊢
    exact invoke_error_state _ s e he

/-- Closed witness for C5: an insufficient-locked failure leaves the state
unchanged, and a sufficient transfer moves the balances. -/
theorem transfer_from_escrow_spec_witness :
    scenarioState.locked (2, 3) < 11
  ∧ transfer_from_escrow_invoke 2 1 3 11 scenarioState =
      (.error .InsufficientLockedFunds, scenarioState)
  ∧ (10 : Int) ≤ scenarioState.locked (2, 3)
  ∧ (10 : Int) ≤ scenarioState.escrow (2, 3)
  ∧ transfer_from_escrow_invoke 2 1 3 10 scenarioState =
      (.ok (), { scenarioState with
        locked := setBal scenarioState.locked (2, 3) (scenarioState.locked (2, 3) - 10),
        escrow := setBal
          (setBal scenarioState.escrow (2, 3) (scenarioState.escrow (2, 3) - 10))
          (1, 3)
          (setBal scenarioState.escrow (2, 3) (scenarioState.escrow (2, 3) - 10)
            (1, 3) + 10) }) := by
  refine ⟨by decide, ?_, by decide, by decide, ?_⟩
  · exact (transfer_from_escrow_spec 2 1 3 11 scenarioState).1 (by decide)
  · exact (transfer_from_escrow_spec 2 1 3 10 scenarioState).2.2.1 (by decide) (by decide)

/-- Claim C6: the signal decoder fails with `InvalidProof` on payloads
shorter than 4 bytes; otherwise, with `n` the big-endian unsigned count in
the first 4 bytes, it fails with `InvalidProof` when the payload holds fewer
than `4 + 32·n` bytes, and otherwise returns exactly `n` 32-byte fields
taken from the payload in order starting at offset 4. -/
theorem parse_public_signals_spec (bytes : Bytes) :
    (bytes.length < 4 → parse_public_signals bytes = .error .InvalidProof)
  ∧ (4 ≤ bytes.length → bytes.length < 4 + 32 * be32 (bytes.take 4) →
      parse_public_signals bytes = .error .InvalidProof)
  ∧ (4 ≤ bytes.length → 4 + 32 * be32 (bytes.take 4) ≤ bytes.length →
      parse_public_signals bytes =
        .ok ((List.range (be32 (bytes.take 4))).map (signalChunk bytes)))
  ∧ (∀ sigs, parse_public_signals bytes = .ok sigs →
      sigs.length = be32 (bytes.take 4) ∧ ∀ w ∈ sigs, w.length = 32) := by
  refine ⟨?_, ?_, ?_, ?_⟩
  · intro h
    simp [parse_public_signals, h]
  · intro h4 hlen
    have h4' : ¬ bytes.length < 4 := by omega
    simp only [parse_public_signals, h4', if_false]
    cases hn : be32 (bytes.take 4) with
    | zero => omega
    | succ m =>
      rw [hn] at hlen
      exact readFields_err bytes m 4 (by omega)
  · intro h4 hlen
    have h4' : ¬ bytes.length < 4 := by omega
    simp only [parse_public_signals, h4', if_false]
    rw [readFields_ok bytes (be32 (bytes.take 4)) 4 (by omega)]
    rfl
  · intro sigs hok
    by_cases h4 : bytes.length < 4
    · simp [parse_public_signals, h4] at hok
    · by_cases hlen : bytes.length < 4 + 32 * be32 (bytes.take 4)
      · have h4' : ¬ bytes.length < 4 := h4
        rw [show parse_public_signals bytes = .error .InvalidProof from by
          simp only [parse_public_signals, h4', if_false]
          cases hn : be32 (bytes.take 4) with
          | zero => omega
          | succ m =>
            rw [hn] at hlen
            exact readFields_err bytes m 4 (by omega)] at hok
        simp at hok
      · have h4' : ¬ bytes.length < 4 := h4
        have hge : 4 + 32 * be32 (bytes.take 4) ≤ bytes.length := by omega
        have heq : parse_public_signals bytes =
            .ok ((List.range (be32 (bytes.take 4))).map (signalChunk bytes)) := by
          simp only [parse_public_signals, h4', if_false]
          rw [readFields_ok bytes (be32 (bytes.take 4)) 4 (by omega)]
          rfl
        rw [heq] at hok
        simp only [Except.ok.injEq] at hok
        subst hok
        constructor
        · simp
        · intro w hw
          simp only [List.mem_map, List.mem_range] at hw
          obtain ⟨i, hi, hwi⟩ := hw
          rw [← hwi]
          simp only [signalChunk, List.length_take, List.length_drop]
          omega

/-- Closed witness for C6: a 2-byte payload is rejected; a payload declaring
2 fields but carrying only one is rejected (Scenario D); a payload declaring
7 fields with 224 field bytes decodes to its 7 chunks. -/
theorem parse_public_signals_spec_witness :
    (([0, 0] : Bytes)).length < 4
  ∧ parse_public_signals [0, 0] = .error .InvalidProof
  ∧ 4 ≤ (([0, 0, 0, 2] ++ List.replicate 32 0 : Bytes)).length
  ∧ (([0, 0, 0, 2] ++ List.replicate 32 0 : Bytes)).length <
      4 + 32 * be32 ((([0, 0, 0, 2] ++ List.replicate 32 0 : Bytes)).take 4)
  ∧ parse_public_signals ([0, 0, 0, 2] ++ List.replicate 32 0) = .error .InvalidProof
  ∧ 4 + 32 * be32 (samplePayload.take 4) ≤ samplePayload.length
  ∧ parse_public_signals samplePayload =
      .ok ((List.range (be32 (samplePayload.take 4))).map (signalChunk samplePayload)) := by
  refine ⟨by decide, ?_, by decide, by decide, ?_, by decide, ?_⟩
  · exact (parse_public_signals_spec [0, 0]).1 (by decide)
  · exact (parse_public_signals_spec ([0, 0, 0, 2] ++ List.replicate 32 0)).2.1
      (by decide) (by decide)
  · exact (parse_public_signals_spec samplePayload).2.2.1 (by decide) (by decide)

/-- Claim C7: `settle_trade` fails with `InvalidProof`, with no state
mutation, whenever the signal-codec decode of the payload fails or the
decoded sequence length is not exactly 7. -/
theorem settle_trade_bad_signals (vrf : Bytes → Bytes → Bool) (now : Nat)
    (mid : Word) (b sl aa pa : Addr) (q pr : Int) (pf ps : Bytes)
    (s : ContractState) :
    (∀ e, parse_public_signals ps = .error e →
      settle_trade_invoke vrf now mid b sl aa pa q pr pf ps s =
        (.error .InvalidProof, s))
  ∧ (∀ sigs, parse_public_signals ps = .ok sigs → sigs.length ≠ 7 →
      settle_trade_invoke vrf now mid b sl aa pa q pr pf ps s =
        (.error .InvalidProof, s)) := by
  constructor
  · intro e he
    have he' : e = .InvalidProof := parse_error_eq ps e he
    subst he'
    exact invoke_of_error _ s _
      (settle_trade_parse_err vrf now s mid b sl aa pa q pr pf ps _ he)
  · intro sigs hok h7
    exact invoke_of_error _ s _
      (settle_trade_len_err vrf now s mid b sl aa pa q pr pf ps sigs hok h7)

/-- Closed witness for C7: an empty payload and a 1-signal payload both make
`settle_trade` fail with `InvalidProof`, leaving the state unchanged. -/
theorem settle_trade_bad_signals_witness :
    parse_public_signals ([] : Bytes) = .error .InvalidProof
  ∧ settle_trade_invoke (fun _ _ => true) 0 sampleWord 1 2 3 4 1 1 [] [] initState =
      (.error .InvalidProof, initState)
  ∧ parse_public_signals ([0, 0, 0, 1] ++ List.replicate 32 0) = .ok [sampleWord]
  ∧ ([sampleWord] : List Word).length ≠ 7
  ∧ settle_trade_invoke (fun _ _ => true) 0 sampleWord 1 2 3 4 1 1 []
      ([0, 0, 0, 1] ++ List.replicate 32 0) initState =
      (.error .InvalidProof, initState) := by
  refine ⟨by rfl, ?_, by rfl, by decide, ?_⟩
  · exact (settle_trade_bad_signals (fun _ _ => true) 0 sampleWord 1 2 3 4 1 1 [] []
      initState).1 .InvalidProof (by rfl)
  · exact (settle_trade_bad_signals (fun _ _ => true) 0 sampleWord 1 2 3 4 1 1 []
      ([0, 0, 0, 1] ++ List.replicate 32 0) initState).2 [sampleWord] (by rfl) (by decide)

/-- Claim C8: under the documented data-model invariant that the locked
balance is nonnegative, `withdraw` computes `available = escrow − locked`
and fails with `InsufficientBalance` exactly when `available < amount`;
otherwise it decrements the escrow entry and returns the new balance, and
the token transfer back to the participant is emitted from the state whose
escrow entry is already decremented (the decrement happens before the
external transfer). -/
theorem withdraw_spec (p a : Addr) (amt : Int) (s : ContractState)
    (hlk : 0 ≤ s.locked (p, a)) :
    (s.escrow (p, a) - s.locked (p, a) < amt →
      withdraw_invoke p a amt s = (.error .InsufficientBalance, s))
  ∧ (amt ≤ s.escrow (p, a) - s.locked (p, a) →
      withdraw_invoke p a amt s =
        (.ok (s.escrow (p, a) - amt),
          emitTokenMove
            { s with escrow := setBal s.escrow (p, a) (s.escrow (p, a) - amt) }
            contractAddress p a amt)) := by
  constructor
  · intro h
    simp only [withdraw_invoke]
    exact invoke_of_error _ s _ (withdraw_insufficient s p a amt h)
  · intro h
    have h2 : amt ≤ s.escrow (p, a) := by omega
    simp only [withdraw_invoke]
    exact invoke_of_ok _ s _ _ (withdraw_ok s p a amt h h2)

/-- Closed witness for C8 after a deposit of 7: withdrawing 9 fails with
`InsufficientBalance` and withdrawing 5 decrements the escrow entry. -/
theorem withdraw_spec_witness :
    (0 : Int) ≤ ((deposit_invoke 1 2 7 initState).2).locked (1, 2)
  ∧ ((deposit_invoke 1 2 7 initState).2).escrow (1, 2) -
      ((deposit_invoke 1 2 7 initState).2).locked (1, 2) < 9
  ∧ withdraw_invoke 1 2 9 ((deposit_invoke 1 2 7 initState).2) =
      (.error .InsufficientBalance, (deposit_invoke 1 2 7 initState).2)
  ∧ (5 : Int) ≤ ((deposit_invoke 1 2 7 initState).2).escrow (1, 2) -
      ((deposit_invoke 1 2 7 initState).2).locked (1, 2)
  ∧ withdraw_invoke 1 2 5 ((deposit_invoke 1 2 7 initState).2) =
      (.ok (((deposit_invoke 1 2 7 initState).2).escrow (1, 2) - 5),
        emitTokenMove
          { (deposit_invoke 1 2 7 initState).2 with
            escrow := setBal ((deposit_invoke 1 2 7 initState).2).escrow (1, 2)
              (((deposit_invoke 1 2 7 initState).2).escrow (1, 2) - 5) }
          contractAddress 1 2 5) := by
  refine ⟨by decide, by decide, ?_, by decide, ?_⟩
  · exact (withdraw_spec 1 2 9 ((deposit_invoke 1 2 7 initState).2) (by decide)).1
      (by decide)
  · exact (withdraw_spec 1 2 5 ((deposit_invoke 1 2 7 initState).2) (by decide)).2
      (by decide)

/-- Claim C9: depositing `amount` and then withdrawing `amount` with no
intervening lock or unlock (and the external token transfers committing)
returns the escrow entry to its pre-deposit value; the inner withdraw
succeeds and returns exactly the pre-deposit balance.  The pre state is
assumed to satisfy the documented data-model invariants
`0 ≤ locked ≤ escrow` at the key. -/
theorem deposit_withdraw_round_trip (p a : Addr) (amt : Int) (s : ContractState)
    (h1 : 0 ≤ s.locked (p, a)) (h2 : s.locked (p, a) ≤ s.escrow (p, a)) :
    (withdraw_invoke p a amt ((deposit_invoke p a amt s).2)).1 =
      .ok (s.escrow (p, a))
  ∧ (withdraw_invoke p a amt ((deposit_invoke p a amt s).2)).2.escrow (p, a) =
      s.escrow (p, a) := by
  rw [deposit_invoke_eq]
  have hesc : ({ emitTokenMove s p contractAddress a amt with
      escrow := setBal s.escrow (p, a) (s.escrow (p, a) + amt) } :
      ContractState).escrow (p, a) = s.escrow (p, a) + amt := by
    show setBal s.escrow (p, a) (s.escrow (p, a) + amt) (p, a) = s.escrow (p, a) + amt
    exact setBal_same s.escrow (p, a) _
  have hav : amt ≤ ({ emitTokenMove s p contractAddress a amt with
      escrow := setBal s.escrow (p, a) (s.escrow (p, a) + amt) } :
      ContractState).escrow (p, a) -
      ({ emitTokenMove s p contractAddress a amt with
      escrow := setBal s.escrow (p, a) (s.escrow (p, a) + amt) } :
      ContractState).locked (p, a) := by
    rw [hesc]
    show amt ≤ s.escrow (p, a) + amt - s.locked (p, a)
    omega
  have hesc2 : amt ≤ ({ emitTokenMove s p contractAddress a amt with
      escrow := setBal s.escrow (p, a) (s.escrow (p, a) + amt) } :
      ContractState).escrow (p, a) := by
    rw [hesc]
    omega
  have hwraw := withdraw_ok
    { emitTokenMove s p contractAddress a amt with
      escrow := setBal s.escrow (p, a) (s.escrow (p, a) + amt) }
    p a amt hav hesc2
  have hw := invoke_of_ok (fun t => withdraw t p a amt)
    { emitTokenMove s p contractAddress a amt with
      escrow := setBal s.escrow (p, a) (s.escrow (p, a) + amt) } _ _ hwraw
  simp only [withdraw_invoke]
  rw [hw]
  constructor
  · show Except.ok (({ emitTokenMove s p contractAddress a amt with
      escrow := setBal s.escrow (p, a) (s.escrow (p, a) + amt) } :
      ContractState).escrow (p, a) - amt) = Except.ok (s.escrow (p, a))
    rw [hesc]
    norm_num
  · show setBal (setBal s.escrow (p, a) (s.escrow (p, a) + amt)) (p, a)
      (({ emitTokenMove s p contractAddress a amt with
        escrow := setBal s.escrow (p, a) (s.escrow (p, a) + amt) } :
        ContractState).escrow (p, a) - amt) (p, a) = s.escrow (p, a)
    rw [setBal_same, hesc]
    ring

/-- Closed witness for C9 at a concrete state and amount. -/
theorem deposit_withdraw_round_trip_witness :
    (0 : Int) ≤ scenarioState.locked (1, 4)
  ∧ scenarioState.locked (1, 4) ≤ scenarioState.escrow (1, 4)
  ∧ (withdraw_invoke 1 4 123 ((deposit_invoke 1 4 123 scenarioState).2)).1 =
      .ok (scenarioState.escrow (1, 4))
  ∧ (withdraw_invoke 1 4 123 ((deposit_invoke 1 4 123 scenarioState).2)).2.escrow (1, 4) =
      scenarioState.escrow (1, 4) := by
  refine ⟨by decide, by decide, ?_, ?_⟩
  · exact (deposit_withdraw_round_trip 1 4 123 scenarioState (by decide) (by decide)).1
  · exact (deposit_withdraw_round_trip 1 4 123 scenarioState (by decide) (by decide)).2

/-- Claim C10: `deposit` performs no sign or range check on the amount and
never returns a `SettlementError`: for every amount (zero and negative
included), provided the external token collaborator commits the transfer, it
unconditionally adds the amount to the escrow entry and returns `Ok` with
the new balance, recording the external transfer from the depositor to the
contract. -/
theorem deposit_no_error (p a : Addr) (amt : Int) (s : ContractState) :
    deposit_invoke p a amt s =
      (.ok (s.escrow (p, a) + amt),
        { emitTokenMove s p contractAddress a amt with
          escrow := setBal s.escrow (p, a) (s.escrow (p, a) + amt) }) :=
  deposit_invoke_eq p a amt s
